import Mathlib

/-!
Verification development for the matchmaking service (`main.go` plus its
`schema.sql`).  The durable database state (tables `matchmaking_queue` and
`sessions`), the per-tick body of `matchmakingProcessor`, the in-memory
`waitingChans` registry and the two branches of `matchmakingHandler` are
embedded shallowly as pure functions over explicit state.
-/

namespace MatchingService

/-- Go struct `Player` from `main.go`: `{ID string; Rating int}`. -/
structure Player where
  id : String
  rating : Int
  deriving DecidableEq

/-- Go struct `SessionResult` from `main.go`: a minted session with its two players. -/
structure SessionResult where
  sessionID : String
  player1 : Player
  player2 : Player
  deriving DecidableEq

/-- One row of the `matchmaking_queue` table
(`player_id PRIMARY KEY, rating, waiting_since`).  The `waiting_since`
timestamp is modelled as a natural number. -/
structure QueueEntry where
  player : Player
  waiting_since : Nat
  deriving DecidableEq

/-- One row of the `sessions` table
(`session_id PRIMARY KEY, player1_id, player2_id, start_time`); the
`start_time` column is never read back and is omitted. -/
structure SessionRow where
  session_id : String
  player1_id : String
  player2_id : String
  deriving DecidableEq

/-- The durable MySQL state: the two tables of `schema.sql`.
`queue` is kept in row-insertion order. -/
structure DBState where
  queue : List QueueEntry
  sessions : List SessionRow
  deriving DecidableEq

/-- Whether `matchmaking_queue` already holds a row for `pid`
(the `PRIMARY KEY (player_id)` uniqueness check). -/
def queueHasId (db : DBState) (pid : String) : Bool :=
  db.queue.any (fun e => e.player.id == pid)

/-- Whether `sessions` already holds a row for `sid`
(the `PRIMARY KEY (session_id)` uniqueness check). -/
def sessionsHasId (db : DBState) (sid : String) : Bool :=
  db.sessions.any (fun s => s.session_id == sid)

/-- Function `insertWaitingPlayer` from `main.go`: the INSERT into
`matchmaking_queue` with `NOW()` as `waiting_since`.  Returns `none` when
the statement errors, which happens exactly when the primary key
`player_id` is already present. -/
def insertWaitingPlayer (p : Player) (now : Nat) (db : DBState) : Option DBState :=
  if queueHasId db p.id then none
  else some { db with queue := db.queue ++ [{ player := p, waiting_since := now }] }

/-- Function `deleteWaitingPlayer` from `main.go`:
`DELETE FROM matchmaking_queue WHERE player_id = ?` (a no-op when the row
is absent). -/
def deleteWaitingPlayer (pid : String) (db : DBState) : DBState :=
  { db with queue := db.queue.filter (fun e => e.player.id != pid) }

/-- Insert `e` into a list that is already in ascending `waiting_since`
order, after any entry with an equal timestamp: the stable order produced
by `ORDER BY waiting_since ASC` over rows read in insertion order. -/
def insertBySince (e : QueueEntry) : List QueueEntry → List QueueEntry
  | [] => [e]
  | x :: xs =>
    if x.waiting_since ≤ e.waiting_since then x :: insertBySince e xs
    else e :: x :: xs

/-- Stable sort of the queue rows by ascending `waiting_since`
(the `ORDER BY waiting_since ASC` of `getWaitingPlayers`). -/
def orderBySince : List QueueEntry → List QueueEntry
  | [] => []
  | x :: xs => insertBySince x (orderBySince xs)

/-- Function `getWaitingPlayers` from `main.go`:
`SELECT player_id, rating FROM matchmaking_queue ORDER BY waiting_since
ASC FOR UPDATE`, scanned into a list of `Player`. -/
def getWaitingPlayers (db : DBState) : List Player :=
  (orderBySince db.queue).map (fun e => e.player)

/-- Function `createSession` from `main.go`: mints
`session-<UnixNano>` and packages the two players.  The nanosecond clock
reading is the explicit argument `nano`. -/
def createSession (p1 p2 : Player) (nano : Nat) : SessionResult :=
  { sessionID := "session-" ++ toString nano
    player1 := p1
    player2 := p2 }

/-- Function `insertSession` from `main.go`: the INSERT into `sessions`.  Note that
in the source this statement runs on the global `db` handle (`db.Exec`),
not on the transaction of the processor; the tick model below reflects that.
Returns `none` when the statement errors (duplicate `session_id`). -/
def insertSession (s : SessionResult) (db : DBState) : Option DBState :=
  if sessionsHasId db s.sessionID then none
  else some { db with sessions := db.sessions ++
      [{ session_id := s.sessionID, player1_id := s.player1.id, player2_id := s.player2.id }] }

/-- The selection step of the tick (lines 148-151 of `main.go`): take the
first two rows of the `ORDER BY waiting_since ASC` result, if the result
has at least two rows. -/
def selectPair (db : DBState) : Option (Player × Player) :=
  match getWaitingPlayers db with
  | p1 :: p2 :: _ => some (p1, p2)
  | _ => none

/-- Which statement of a tick errors, if any.  `commitFails` models
`tx.Commit()` returning an error. -/
inductive TickFailure
  | noFail
  | beginFails
  | queryFails
  | deleteFails
  | insertFails
  | commitFails
  deriving DecidableEq

/-- The queue after `DELETE FROM matchmaking_queue WHERE player_id IN (?, ?)`. -/
def deletePairFromQueue (id1 id2 : String) (q : List QueueEntry) : List QueueEntry :=
  q.filter (fun e => e.player.id != id1 && e.player.id != id2)

/-- One iteration of the loop body of `matchmakingProcessor` from
`main.go`, restricted to its durable effects.  The transaction semantics
is explicit: the queue DELETE runs through `tx` and becomes durable only
on a successful `tx.Commit()`, while `insertSession` runs on the global
`db` handle (autocommit) and is durable the moment it succeeds, whatever
the transaction later does.  Returns the new durable state and the
session the tick committed, if any. -/
def matchmakingTick (f : TickFailure) (nano : Nat) (db : DBState) :
    DBState × Option SessionResult :=
  if f = TickFailure.beginFails ∨ f = TickFailure.queryFails then (db, none)
  else
    match selectPair db with
    | none => (db, none)
    | some (p1, p2) =>
      let session := createSession p1 p2 nano
      if f = TickFailure.deleteFails then (db, none)
      else
        match (if f = TickFailure.insertFails then none else insertSession session db) with
        | none => (db, none)
        | some dbIns =>
          if f = TickFailure.commitFails then (dbIns, none)
          else ({ dbIns with queue := deletePairFromQueue p1.id p2.id dbIns.queue },
                some session)

/-- Run a sequence of ticks; each step carries its failure scenario and
its `UnixNano` clock reading. -/
def runTicks (steps : List (TickFailure × Nat)) (db : DBState) : DBState :=
  steps.foldl (fun d step => (matchmakingTick step.1 step.2 d).1) db

/-- A `chan SessionResult` of capacity 1 from `main.go`.  `cid` is the
identity of the channel (distinct `make(chan ...)` calls yield distinct
channels); `slot` is the one-element buffer, `none` when empty. -/
structure Chan where
  cid : Nat
  slot : Option SessionResult
  deriving DecidableEq

/-- The in-memory `waitingChans` map from `main.go`, as an association
list with at most one entry per player id. -/
abbrev Registry := List (String × Chan)

/-- Go map lookup `waitingChans[pid]`. -/
def lookupChan (pid : String) : Registry → Option Chan
  | [] => none
  | (q, ch) :: rest => if q == pid then some ch else lookupChan pid rest

/-- Go map deletion `delete(waitingChans, pid)`. -/
def eraseChan (pid : String) : Registry → Registry
  | [] => []
  | (q, ch) :: rest => if q == pid then rest else (q, ch) :: eraseChan pid rest

/-- The registration step `waitingChans[player.ID] = matchChan` of
`matchmakingHandler` (lines 208-211 of `main.go`): a fresh capacity-1
channel with identity `cid` is stored under `pid`; a Go map assignment
replaces any entry already present under that key. -/
def registerChan (pid : String) (cid : Nat) (reg : Registry) : Registry :=
  (pid, { cid := cid, slot := none }) :: eraseChan pid reg

/-- A send `ch <- s` on a capacity-1 channel: fills the buffer when it is
empty; `none` means the send blocks (buffer already full, no receiver). -/
def sendChan (ch : Chan) (s : SessionResult) : Option Chan :=
  match ch.slot with
  | none => some { ch with slot := some s }
  | some _ => none

/-- The post-commit delivery step of `matchmakingProcessor` for one player
(lines 176-179 / 180-183 of `main.go`, under `waitingChansMutex`):
`if ch, ok := waitingChans[pid]; ok { ch <- session; delete(waitingChans, pid) }`.
Returns `none` when the matcher would block on the send; otherwise the
new registry, the state of the channel that was sent to (as seen by the
waiting request that still references it), and whether a handle existed. -/
def deliver (pid : String) (s : SessionResult) (reg : Registry) :
    Option (Registry × Option Chan × Bool) :=
  match lookupChan pid reg with
  | some ch =>
    match sendChan ch s with
    | some ch2 => some (eraseChan pid reg, some ch2, true)
    | none => none
  | none => some (reg, none, false)

/-- What `matchmakingHandler` writes back to the client. -/
inductive HandlerResponse
  | sessionPayload (s : SessionResult)
  | httpError (status : Nat) (body : String)
  deriving DecidableEq

/-- The registration phase of `matchmakingHandler` (lines 200-211 of
`main.go`): `insertWaitingPlayer`, then — only on success — creation of
the buffered channel and its installation in `waitingChans`.
`storageFails` models a database error other than the duplicate key.
Returns `some` response when the handler replies without waiting, plus
the durable state and the registry after the phase. -/
def registerPhase (p : Player) (now cid : Nat) (storageFails : Bool)
    (db : DBState) (reg : Registry) : Option HandlerResponse × DBState × Registry :=
  match (if storageFails then none else insertWaitingPlayer p now db) with
  | none => (some (HandlerResponse.httpError 500 "Failed to register waiting player"), db, reg)
  | some db1 => (none, db1, registerChan p.id cid reg)

/-- The timeout branch of the `select` in `matchmakingHandler` (lines 222-231
of `main.go`): remove the channel from `waitingChans`, run
`deleteWaitingPlayer`, reply 504. -/
def timeoutCleanup (pid : String) (db : DBState) (reg : Registry) :
    HandlerResponse × DBState × Registry :=
  (HandlerResponse.httpError 504 "No opponent found within timeout",
   deleteWaitingPlayer pid db,
   eraseChan pid reg)

/-- Which arm of the `select` in the handler fires. -/
inductive SelectChoice
  | received
  | timedOut
  deriving DecidableEq

/-- The `select` of `matchmakingHandler` (lines 216-232 of `main.go`),
given the channel `ch` owned by the handler, the durable state and the registry
at the moment the chosen arm runs.  The `received` arm needs a session in
the channel buffer (`none` result = the receive would block); the
`timedOut` arm runs `timeoutCleanup` without ever looking at `ch`,
exactly as the source does. -/
def handlerWait (choice : SelectChoice) (pid : String) (ch : Chan)
    (db : DBState) (reg : Registry) : Option (HandlerResponse × DBState × Registry) :=
  match choice with
  | SelectChoice.received =>
    ch.slot.map (fun s => (HandlerResponse.sessionPayload s, db, reg))
  | SelectChoice.timedOut => some (timeoutCleanup pid db reg)

/-! ### Concrete states used by the closed theorems and witnesses -/

/-- The empty database. -/
def emptyDB : DBState := { queue := [], sessions := [] }

/-- Players `a1` and `b1` waiting, enqueued at times 5 and 6. -/
def dbTwoWaiting : DBState :=
  { queue := [{ player := { id := "a1", rating := 1000 }, waiting_since := 5 },
              { player := { id := "b1", rating := 1200 }, waiting_since := 6 }]
    sessions := [] }

/-- Only player `a1` waiting. -/
def dbOneWaiting : DBState :=
  { queue := [{ player := { id := "a1", rating := 1000 }, waiting_since := 5 }]
    sessions := [] }

/-- Four players waiting, enqueued in id order. -/
def dbFourWaiting : DBState :=
  { queue := [{ player := { id := "a1", rating := 1000 }, waiting_since := 5 },
              { player := { id := "b1", rating := 1200 }, waiting_since := 6 },
              { player := { id := "c1", rating := 900 }, waiting_since := 7 },
              { player := { id := "d1", rating := 1500 }, waiting_since := 8 }]
    sessions := [] }

/-- A registry holding one empty handle for `a1`, with channel identity 0. -/
def regA1 : Registry := [("a1", { cid := 0, slot := none })]

/-- A concrete session value. -/
def sessionX : SessionResult :=
  { sessionID := "session-77"
    player1 := { id := "a1", rating := 1000 }
    player2 := { id := "b1", rating := 1200 } }

/-! ### Helper lemmas -/

/-- Ascending `waiting_since` order between two queue rows. -/
def sinceLe (a b : QueueEntry) : Prop := a.waiting_since ≤ b.waiting_since

theorem insertBySince_perm (e : QueueEntry) (l : List QueueEntry) :
    (insertBySince e l).Perm (e :: l) := by
  induction l with
  | nil => simp [insertBySince]
  | cons x xs ih =>
    by_cases h : x.waiting_since ≤ e.waiting_since
    · simp only [insertBySince, if_pos h]
      exact (ih.cons x).trans (List.Perm.swap e x xs)
    · simp [insertBySince, if_neg h]

theorem orderBySince_perm (l : List QueueEntry) : (orderBySince l).Perm l := by
  induction l with
  | nil => simp [orderBySince]
  | cons x xs ih => exact (insertBySince_perm x (orderBySince xs)).trans (ih.cons x)

theorem insertBySince_pairwise (e : QueueEntry) (l : List QueueEntry)
    (h : l.Pairwise sinceLe) : (insertBySince e l).Pairwise sinceLe := by
  induction l with
  | nil => simp [insertBySince, sinceLe]
  | cons x xs ih =>
    rcases List.pairwise_cons.mp h with ⟨hx, hxs⟩
    by_cases hle : x.waiting_since ≤ e.waiting_since
    · simp only [insertBySince, if_pos hle]
      refine List.pairwise_cons.mpr ⟨?_, ih hxs⟩
      intro b hb
      rcases List.mem_cons.mp ((insertBySince_perm e xs).mem_iff.mp hb) with hbe | hbxs
      · subst hbe; exact hle
      · exact hx b hbxs
    · have hel : e.waiting_since ≤ x.waiting_since := le_of_not_le hle
      simp only [insertBySince, if_neg hle]
      refine List.pairwise_cons.mpr ⟨?_, h⟩
      intro b hb
      rcases List.mem_cons.mp hb with hbx | hbxs
      · subst hbx; exact hel
      · exact le_trans hel (hx b hbxs)

theorem orderBySince_pairwise (l : List QueueEntry) :
    (orderBySince l).Pairwise sinceLe := by
  induction l with
  | nil => simp [orderBySince]
  | cons x xs ih => exact insertBySince_pairwise x (orderBySince xs) ih

/-- The data the ordering and the selection may depend on: the player id
and the enqueue timestamp — everything in a queue row except the rating. -/
def idAndSince (e : QueueEntry) : String × Nat := (e.player.id, e.waiting_since)

theorem insertBySince_map_idAndSince (e1 e2 : QueueEntry) (l1 l2 : List QueueEntry)
    (he : idAndSince e1 = idAndSince e2)
    (hl : l1.map idAndSince = l2.map idAndSince) :
    (insertBySince e1 l1).map idAndSince = (insertBySince e2 l2).map idAndSince := by
  have hes : e1.waiting_since = e2.waiting_since := congrArg Prod.snd he
  induction l1 generalizing l2 with
  | nil =>
    cases l2 with
    | nil => simp [insertBySince, he]
    | cons y ys => simp at hl
  | cons x xs ih =>
    cases l2 with
    | nil => simp at hl
    | cons y ys =>
      simp only [List.map_cons, List.cons.injEq] at hl
      obtain ⟨hxy, hxs⟩ := hl
      have hxs2 : x.waiting_since = y.waiting_since := congrArg Prod.snd hxy
      by_cases hle : x.waiting_since ≤ e1.waiting_since
      · have hle2 : y.waiting_since ≤ e2.waiting_since := by omega
        simp only [insertBySince, if_pos hle, if_pos hle2, List.map_cons]
        rw [hxy, ih ys hxs]
      · have hle2 : ¬ y.waiting_since ≤ e2.waiting_since := by omega
        simp only [insertBySince, if_neg hle, if_neg hle2, List.map_cons]
        rw [he, hxy, hxs]

theorem orderBySince_map_idAndSince (l1 l2 : List QueueEntry)
    (hl : l1.map idAndSince = l2.map idAndSince) :
    (orderBySince l1).map idAndSince = (orderBySince l2).map idAndSince := by
  induction l1 generalizing l2 with
  | nil =>
    cases l2 with
    | nil => rfl
    | cons y ys => simp at hl
  | cons x xs ih =>
    cases l2 with
    | nil => simp at hl
    | cons y ys =>
      simp only [List.map_cons, List.cons.injEq] at hl
      exact insertBySince_map_idAndSince x y _ _ hl.1 (ih ys hl.2)

theorem lookupChan_eraseChan_ne (q pid : String) (reg : Registry) (h : q ≠ pid) :
    lookupChan q (eraseChan pid reg) = lookupChan q reg := by
  induction reg with
  | nil => rfl
  | cons kv rest ih =>
    obtain ⟨k, ch⟩ := kv
    by_cases hk : k = pid
    · subst hk
      have hq : (k == q) = false := by
        simp only [beq_eq_false_iff_ne]
        exact fun hkq => h (hkq ▸ rfl)
      simp [eraseChan, lookupChan, hq]
    · have hk' : (k == pid) = false := by simpa using hk
      simp only [eraseChan, hk', Bool.false_eq_true, if_false, lookupChan]
      by_cases hkq : k = q
      · subst hkq; simp [lookupChan]
      · have : (k == q) = false := by simpa using hkq
        simp [lookupChan, this, ih]

theorem lookupChan_not_mem (pid : String) (reg : Registry)
    (h : pid ∉ reg.map Prod.fst) : lookupChan pid reg = none := by
  induction reg with
  | nil => rfl
  | cons kv rest ih =>
    obtain ⟨k, ch⟩ := kv
    simp only [List.map_cons, List.mem_cons, not_or] at h
    have hk : (k == pid) = false := by
      simp only [beq_eq_false_iff_ne]
      exact fun hkp => h.1 hkp.symm
    simp only [lookupChan, hk, Bool.false_eq_true, if_false]
    exact ih h.2

theorem lookupChan_eraseChan_self (pid : String) (reg : Registry)
    (hnd : (reg.map Prod.fst).Nodup) :
    lookupChan pid (eraseChan pid reg) = none := by
  induction reg with
  | nil => rfl
  | cons kv rest ih =>
    obtain ⟨k, ch⟩ := kv
    simp only [List.map_cons, List.nodup_cons] at hnd
    by_cases hk : k = pid
    · subst hk
      simp only [eraseChan, beq_self_eq_true, if_true]
      exact lookupChan_not_mem k rest hnd.1
    · have hk' : (k == pid) = false := by simpa using hk
      simp only [eraseChan, hk', Bool.false_eq_true, if_false, lookupChan]
      exact ih hnd.2

theorem lookupChan_mem (pid : String) (reg : Registry) (ch : Chan)
    (h : lookupChan pid reg = some ch) : ∃ q, (q, ch) ∈ reg := by
  induction reg with
  | nil => simp [lookupChan] at h
  | cons kv rest ih =>
    obtain ⟨k, c⟩ := kv
    by_cases hk : (k == pid) = true
    · refine ⟨k, ?_⟩
      simp only [lookupChan, hk, if_true, Option.some.injEq] at h
      subst h; exact List.mem_cons_self _ _
    · simp only [lookupChan, hk, if_false] at h
      obtain ⟨q, hq⟩ := ih h
      exact ⟨q, List.mem_cons_of_mem _ hq⟩

theorem deleteWaitingPlayer_not_queued (pid : String) (db : DBState) :
    queueHasId (deleteWaitingPlayer pid db) pid = false := by
  simp only [queueHasId, deleteWaitingPlayer, List.any_eq_false]
  intro e he
  rcases List.mem_filter.mp he with ⟨-, hne⟩
  simpa using hne

theorem deleteWaitingPlayer_absent (pid : String) (db : DBState)
    (h : queueHasId db pid = false) : deleteWaitingPlayer pid db = db := by
  simp only [queueHasId, List.any_eq_false] at h
  simp only [deleteWaitingPlayer]
  have : db.queue.filter (fun e => e.player.id != pid) = db.queue := by
    apply List.filter_eq_self.mpr
    intro e he
    simpa using h e he
  simp [this]

/-! ### Claim theorems -/

/-- Claim C1.  The claim says the queue DELETE and the session INSERT of a
tick live in one transaction, so that a failed tick leaves no durable
state change.  In the source, `insertSession` runs on the global `db`
handle instead of `tx`: when the transaction fails at `tx.Commit()` after
`insertSession` has already succeeded, the queue DELETE is rolled back
but the session row stays, so the tick durably stores a session while
both matched players remain in the queue. -/
theorem matchmakingTick_commitFails_keeps_session :
    (matchmakingTick TickFailure.commitFails 42 dbTwoWaiting).1.queue = dbTwoWaiting.queue ∧
    (matchmakingTick TickFailure.commitFails 42 dbTwoWaiting).1.sessions =
      [{ session_id := "session-42", player1_id := "a1", player2_id := "b1" }] ∧
    (matchmakingTick TickFailure.commitFails 42 dbTwoWaiting).1 ≠ dbTwoWaiting := by
  refine ⟨rfl, rfl, ?_⟩
  decide

/-- Claim C2.  The timeout arm of the `select` in `matchmakingHandler` never
re-reads the match channel: evaluated at the state reached when the
matcher delivered a session into the buffered channel of the handler just
after the 30-second deadline fired (registry entry already removed, queue
rows already deleted by the committed matching transaction), the handler
still replies with the 504 timeout error and the delivered session is
dropped, contrary to the claim that such a player never receives the
timeout response. -/
theorem handlerWait_timeout_discards_delivered_session :
    handlerWait SelectChoice.timedOut "a1" { cid := 0, slot := some sessionX } emptyDB [] =
      some (HandlerResponse.httpError 504 "No opponent found within timeout", emptyDB, []) ∧
    handlerWait SelectChoice.received "a1" { cid := 0, slot := some sessionX } emptyDB [] =
      some (HandlerResponse.sessionPayload sessionX, emptyDB, []) := by
  exact ⟨rfl, rfl⟩

/-- Claim C8.  Two ticks over a queue holding `a1` and `b1`: in the first
tick `insertSession` succeeds on the global handle but `tx.Commit()`
fails, so the queue DELETE is rolled back while the session row stays;
the second tick then matches the same two players again.  The resulting
`sessions` table holds two rows with distinct session ids that share both
player ids, violating the claimed invariant that no player id appears in
two distinct sessions. -/
theorem runTicks_same_players_in_two_sessions :
    (runTicks [(TickFailure.commitFails, 1), (TickFailure.noFail, 2)] dbTwoWaiting).sessions =
      [{ session_id := "session-1", player1_id := "a1", player2_id := "b1" },
       { session_id := "session-2", player1_id := "a1", player2_id := "b1" }] ∧
    ("session-1" : String) ≠ "session-2" := by
  refine ⟨rfl, ?_⟩
  decide

/-- Claim C3, counterexample.  A duplicate registration (player `a1` is
already waiting) and an internal storage failure produce the very same
response value, `500 "Failed to register waiting player"`: the conflict
is not distinguishable from the internal storage-failure error. -/
theorem registerPhase_conflict_indistinguishable :
    (registerPhase { id := "a1", rating := 1000 } 9 1 false dbOneWaiting []).1 =
      (registerPhase { id := "a1", rating := 1000 } 9 1 true emptyDB []).1 ∧
    (registerPhase { id := "a1", rating := 1000 } 9 1 false dbOneWaiting []).1 =
      some (HandlerResponse.httpError 500 "Failed to register waiting player") := by
  exact ⟨rfl, rfl⟩

/-- Claim C3, amended.  A registration whose player id is already in the
waiting queue fails immediately with the same internal error
(HTTP 500, identical body) that a storage failure produces, the durable
state is unchanged, and no waiter-registry entry is created. -/
theorem registerPhase_duplicate_rejected (p : Player) (now cid : Nat)
    (db : DBState) (reg : Registry) (h : queueHasId db p.id = true) :
    registerPhase p now cid false db reg =
      (some (HandlerResponse.httpError 500 "Failed to register waiting player"), db, reg) := by
  simp [registerPhase, insertWaitingPlayer, h]

/-- Witness for the amended C3 at a concrete duplicate registration. -/
theorem registerPhase_duplicate_rejected_witness :
    queueHasId dbOneWaiting "a1" = true ∧
    registerPhase { id := "a1", rating := 1000 } 9 1 false dbOneWaiting [] =
      (some (HandlerResponse.httpError 500 "Failed to register waiting player"),
       dbOneWaiting, []) :=
  ⟨by decide, registerPhase_duplicate_rejected { id := "a1", rating := 1000 } 9 1
    dbOneWaiting [] (by decide)⟩

/-- Claim C6, counterexample.  Registering `a1` while the registry already
holds a handle for `a1` (channel identity 0) does not fail: the map
assignment silently installs a fresh handle (identity 1) and the existing
handle is not left in place. -/
theorem registerChan_replaces_existing :
    registerChan "a1" 1 regA1 = [("a1", { cid := 1, slot := none })] ∧
    lookupChan "a1" (registerChan "a1" 1 regA1) ≠ some { cid := 0, slot := none } := by
  refine ⟨rfl, ?_⟩
  decide

/-- Claim C6, amended.  Registering a player id for which a delivery
handle already exists reports no error: the Go map assignment replaces
the existing handle with the fresh channel, and entries of every other
player are unaffected. -/
theorem registerChan_overwrites (pid : String) (cid : Nat) (reg : Registry) :
    lookupChan pid (registerChan pid cid reg) = some { cid := cid, slot := none } ∧
    (∀ q, q ≠ pid → lookupChan q (registerChan pid cid reg) = lookupChan q reg) := by
  constructor
  · simp [registerChan, lookupChan]
  · intro q hq
    have hq' : (pid == q) = false := by
      simp only [beq_eq_false_iff_ne]
      exact fun hpq => hq (hpq ▸ rfl)
    simp only [registerChan, lookupChan, hq', Bool.false_eq_true, if_false]
    exact lookupChan_eraseChan_ne q pid reg hq

/-- Witness for the amended C6: replacing the handle of `a1` leaves the
lookup of `b1` unchanged. -/
theorem registerChan_overwrites_witness :
    lookupChan "a1" (registerChan "a1" 1 regA1) = some { cid := 1, slot := none } ∧
    lookupChan "b1" (registerChan "a1" 1 regA1) = lookupChan "b1" regA1 :=
  ⟨(registerChan_overwrites "a1" 1 regA1).1,
   (registerChan_overwrites "a1" 1 regA1).2 "b1" (by decide)⟩

/-- Claim C5.  The timeout branch replies with the 504 timeout error;
afterwards the registry holds no handle for the player and the waiting
queue holds no row for the player; and when the row was already absent
(the matcher removed it first) the `DELETE` is a no-op that leaves the
durable state exactly as it was. -/
theorem timeoutCleanup_spec (pid : String) (db : DBState) (reg : Registry)
    (hnd : (reg.map Prod.fst).Nodup) :
    (timeoutCleanup pid db reg).1 =
      HandlerResponse.httpError 504 "No opponent found within timeout" ∧
    queueHasId (timeoutCleanup pid db reg).2.1 pid = false ∧
    lookupChan pid (timeoutCleanup pid db reg).2.2 = none ∧
    (queueHasId db pid = false → (timeoutCleanup pid db reg).2.1 = db) :=
  ⟨rfl, deleteWaitingPlayer_not_queued pid db,
   lookupChan_eraseChan_self pid reg hnd,
   fun h => deleteWaitingPlayer_absent pid db h⟩

/-- Witness for C5: player `c1` times out while the handle of `a1` is
registered; `c1` was never in the queue, so the cleanup is a no-op on the
durable state. -/
theorem timeoutCleanup_spec_witness :
    (regA1.map Prod.fst).Nodup ∧ queueHasId dbOneWaiting "c1" = false ∧
    (timeoutCleanup "c1" dbOneWaiting regA1).1 =
      HandlerResponse.httpError 504 "No opponent found within timeout" ∧
    (timeoutCleanup "c1" dbOneWaiting regA1).2.1 = dbOneWaiting :=
  ⟨by decide, by decide,
   (timeoutCleanup_spec "c1" dbOneWaiting regA1 (by decide)).1,
   (timeoutCleanup_spec "c1" dbOneWaiting regA1 (by decide)).2.2.2 (by decide)⟩

/-- Claim C7.  Delivery through the registry, assuming every registered
registered handle has an empty one-slot buffer (each channel is sent to at most once,
since the entry is removed under the same mutex as the send): the matcher
never blocks (`deliver` is always `some`); when a handle exists the
session is placed in the buffer of that channel and the registry entry is
removed; when no handle exists — in particular after the waiting request
timed out and removed it — nothing changes and the result is `false`. -/
theorem deliver_contract (pid : String) (s : SessionResult) (reg : Registry)
    (hinv : ∀ e ∈ reg, e.2.slot = none) :
    deliver pid s reg =
      some (match lookupChan pid reg with
            | some ch => (eraseChan pid reg, some { ch with slot := some s }, true)
            | none => (reg, none, false)) := by
  cases hl : lookupChan pid reg with
  | none => simp [deliver, hl]
  | some ch =>
    obtain ⟨q, hq⟩ := lookupChan_mem pid reg ch hl
    have hslot : ch.slot = none := hinv (q, ch) hq
    simp [deliver, hl, sendChan, hslot]

/-- Witness for C7: delivering to the registered `a1` fills its buffer and
empties the registry; delivering to the absent `b1` changes nothing. -/
theorem deliver_contract_witness :
    (∀ e ∈ regA1, e.2.slot = none) ∧
    deliver "a1" sessionX regA1 =
      some ([], some { cid := 0, slot := some sessionX }, true) ∧
    deliver "b1" sessionX regA1 = some (regA1, none, false) := by
  refine ⟨by decide, ?_, ?_⟩
  · rw [deliver_contract "a1" sessionX regA1 (by decide)]
    decide
  · rw [deliver_contract "b1" sessionX regA1 (by decide)]
    decide

/-- Claim C4.  The `ORDER BY waiting_since ASC` view of the queue is
sorted by ascending enqueue time and is a permutation of the stored rows;
a tick over fewer than two waiting rows changes nothing and creates no
session; a tick over at least two waiting rows commits exactly the
session pairing the first two rows of that ascending view — the two
earliest waiters — and deletes exactly their rows. -/
theorem matchmakingTick_pairs_earliest (db : DBState) (nano : Nat) :
    (orderBySince db.queue).Pairwise sinceLe ∧
    (orderBySince db.queue).Perm db.queue ∧
    (db.queue.length < 2 → matchmakingTick TickFailure.noFail nano db = (db, none)) ∧
    (∀ e1 e2 rest, orderBySince db.queue = e1 :: e2 :: rest →
      sessionsHasId db ("session-" ++ toString nano) = false →
      matchmakingTick TickFailure.noFail nano db =
        ({ queue := deletePairFromQueue e1.player.id e2.player.id db.queue,
           sessions := db.sessions ++
             [{ session_id := "session-" ++ toString nano,
                player1_id := e1.player.id, player2_id := e2.player.id }] },
         some (createSession e1.player e2.player nano))) := by
  have hguard : ¬ (TickFailure.noFail = TickFailure.beginFails ∨
      TickFailure.noFail = TickFailure.queryFails) := by decide
  refine ⟨orderBySince_pairwise db.queue, orderBySince_perm db.queue, ?_, ?_⟩
  · intro hlen
    have hl : (orderBySince db.queue).length < 2 := by
      rw [(orderBySince_perm db.queue).length_eq]; exact hlen
    have hsel : selectPair db = none := by
      rcases hq : orderBySince db.queue with _ | ⟨a, _ | ⟨b, u⟩⟩
      · simp [selectPair, getWaitingPlayers, hq]
      · simp [selectPair, getWaitingPlayers, hq]
      · rw [hq] at hl
        simp only [List.length_cons] at hl
        omega
    simp [matchmakingTick, if_neg hguard, hsel]
  · intro e1 e2 rest hq hins
    have hsel : selectPair db = some (e1.player, e2.player) := by
      simp [selectPair, getWaitingPlayers, hq]
    simp only [matchmakingTick, if_neg hguard, hsel]
    simp [insertSession, createSession, hins]

/-- Witness for C4: one waiter is left alone; with `a1` (enqueued at 5)
and `b1` (enqueued at 6) waiting, the tick matches exactly them. -/
theorem matchmakingTick_pairs_earliest_witness :
    matchmakingTick TickFailure.noFail 7 dbOneWaiting = (dbOneWaiting, none) ∧
    matchmakingTick TickFailure.noFail 7 dbTwoWaiting =
      ({ queue := [],
         sessions := [{ session_id := "session-7", player1_id := "a1", player2_id := "b1" }] },
       some (createSession { id := "a1", rating := 1000 } { id := "b1", rating := 1200 } 7)) := by
  constructor
  · exact (matchmakingTick_pairs_earliest dbOneWaiting 7).2.2.1 (by decide)
  · have h := (matchmakingTick_pairs_earliest dbTwoWaiting 7).2.2.2
      { player := { id := "a1", rating := 1000 }, waiting_since := 5 }
      { player := { id := "b1", rating := 1200 }, waiting_since := 6 } [] (by decide) (by decide)
    exact h.trans (by decide)

/-- Claim C9.  Rating noninterference of the pairing decision: two queue
states that agree row-by-row on player ids and enqueue timestamps — and
may differ arbitrarily in ratings — yield the same selected pair of
player ids in the selection step of the tick. -/
theorem selectPair_ignores_ratings (db1 db2 : DBState)
    (h : db1.queue.map idAndSince = db2.queue.map idAndSince) :
    (selectPair db1).map (fun pr => (pr.1.id, pr.2.id)) =
      (selectPair db2).map (fun pr => (pr.1.id, pr.2.id)) := by
  have hm := orderBySince_map_idAndSince _ _ h
  rcases h1 : orderBySince db1.queue with _ | ⟨a, _ | ⟨b, t⟩⟩ <;>
    rcases h2 : orderBySince db2.queue with _ | ⟨c, _ | ⟨d, u⟩⟩ <;>
      rw [h1, h2] at hm <;>
        simp_all [selectPair, getWaitingPlayers, idAndSince, Prod.ext_iff]

/-- A copy of `dbTwoWaiting` in which only the ratings differ. -/
def dbTwoWaitingAltRatings : DBState :=
  { queue := [{ player := { id := "a1", rating := 1 }, waiting_since := 5 },
              { player := { id := "b1", rating := 9999 }, waiting_since := 6 }]
    sessions := [] }

/-- Witness for C9 on two concrete queues differing only in ratings. -/
theorem selectPair_ignores_ratings_witness :
    dbTwoWaiting.queue.map idAndSince = dbTwoWaitingAltRatings.queue.map idAndSince ∧
    (selectPair dbTwoWaiting).map (fun pr => (pr.1.id, pr.2.id)) =
      (selectPair dbTwoWaitingAltRatings).map (fun pr => (pr.1.id, pr.2.id)) :=
  ⟨by decide, selectPair_ignores_ratings dbTwoWaiting dbTwoWaitingAltRatings (by decide)⟩

/-- Claim C10.  A failure-free tick adds at most one row to `sessions`;
when fewer than two players wait it changes nothing; and when it selects
the pair `(p1, p2)`, every queue row of any other player survives the
tick, and any row the tick removed belonged to `p1` or `p2`. -/
theorem matchmakingTick_bounded (db : DBState) (nano : Nat) :
    (matchmakingTick TickFailure.noFail nano db).1.sessions.length ≤ db.sessions.length + 1 ∧
    (selectPair db = none → matchmakingTick TickFailure.noFail nano db = (db, none)) ∧
    (∀ p1 p2, selectPair db = some (p1, p2) → ∀ e ∈ db.queue,
      ((e.player.id ≠ p1.id ∧ e.player.id ≠ p2.id) →
        e ∈ (matchmakingTick TickFailure.noFail nano db).1.queue) ∧
      (e ∉ (matchmakingTick TickFailure.noFail nano db).1.queue →
        e.player.id = p1.id ∨ e.player.id = p2.id)) := by
  have hguard : ¬ (TickFailure.noFail = TickFailure.beginFails ∨
      TickFailure.noFail = TickFailure.queryFails) := by decide
  rcases hsel : selectPair db with _ | ⟨q1, q2⟩
  · have htick : matchmakingTick TickFailure.noFail nano db = (db, none) := by
      simp [matchmakingTick, if_neg hguard, hsel]
    refine ⟨by rw [htick]; exact Nat.le_succ _, fun _ => htick, ?_⟩
    intro p1 p2 hcontra
    exact Option.noConfusion hcontra
  · by_cases hdup : sessionsHasId db ("session-" ++ toString nano) = true
    · have htick : matchmakingTick TickFailure.noFail nano db = (db, none) := by
        simp [matchmakingTick, if_neg hguard, hsel, insertSession, createSession, hdup]
      refine ⟨by rw [htick]; exact Nat.le_succ _, fun hc => htick, ?_⟩
      intro p1 p2 hp e he
      rw [htick]
      exact ⟨fun _ => he, fun habs => absurd he habs⟩
    · have hdup' : sessionsHasId db ("session-" ++ toString nano) = false := by
        simpa using hdup
      have htick : matchmakingTick TickFailure.noFail nano db =
          ({ queue := deletePairFromQueue q1.id q2.id db.queue,
             sessions := db.sessions ++
               [{ session_id := "session-" ++ toString nano,
                  player1_id := q1.id, player2_id := q2.id }] },
           some (createSession q1 q2 nano)) := by
        simp only [matchmakingTick, if_neg hguard, hsel]
        simp [insertSession, hdup', createSession]
      refine ⟨by rw [htick]; simp, fun hc => Option.noConfusion hc, ?_⟩
      intro p1 p2 hp e he
      obtain ⟨rfl, rfl⟩ : q1 = p1 ∧ q2 = p2 := by
        have hpe := Option.some.inj hp
        exact ⟨congrArg Prod.fst hpe, congrArg Prod.snd hpe⟩
      rw [htick]
      constructor
      · intro hne
        simp only [deletePairFromQueue, List.mem_filter]
        refine ⟨he, ?_⟩
        simp [hne.1, hne.2]
      · intro hnotin
        simp only [deletePairFromQueue, List.mem_filter, not_and] at hnotin
        have := hnotin he
        by_contra hno
        push_neg at hno
        simp [hno.1, hno.2] at this

/-- Witness for C10: a lone waiter is untouched; with four players
waiting, the row of `c1` survives the tick that matches `a1` and `b1`. -/
theorem matchmakingTick_bounded_witness :
    matchmakingTick TickFailure.noFail 7 dbOneWaiting = (dbOneWaiting, none) ∧
    ({ player := { id := "c1", rating := 900 }, waiting_since := 7 } : QueueEntry) ∈
      (matchmakingTick TickFailure.noFail 7 dbFourWaiting).1.queue := by
  constructor
  · exact (matchmakingTick_bounded dbOneWaiting 7).2.1 (by decide)
  · exact ((matchmakingTick_bounded dbFourWaiting 7).2.2
      { id := "a1", rating := 1000 } { id := "b1", rating := 1200 } (by decide)
      { player := { id := "c1", rating := 900 }, waiting_since := 7 } (by decide)).1
      (by decide)

end MatchingService
